import Mathlib

/-!
# GoQuiet server: dispatch, relay and replay-cache sweep

A shallow embedding of `cmd/gq-server/gq-server.go`.

* Connections are identifiers (`Conn`); every network call of the source is
  recorded as one event (`Ev`) of a trace, with its outcome taken from an
  oracle (`Net`, `RelayNet`).
* The functions of package `gqserver` (`ParseClientHello`, `IsSS`,
  `ComposeReply`, `PeelRecordLayer`, `AddRecordLayer`) are not part of this
  file of the repository; they are parameters (`Lib`).
* The endless `for` loops of the relay take a fuel argument and report whether
  they returned.
-/

namespace GoQuiet

/-! ## Data model -/

abbrev Byte := Fin 256

abbrev Bytes := List Byte

/-- The three connections a dispatcher can hold: `client` is the accepted
connection (`conn` in `dispatchConnection`, `remote` in the pairs), `webServer`
the connection dialed by `makeWebPipe`, `ss` the one dialed by `makeSSPipe`. -/
inductive Conn where
  | client
  | webServer
  | ss
  deriving DecidableEq, Repr

/-- Source: `type webPair struct { webServer net.Conn; remote net.Conn }`. -/
structure webPair where
  webServer : Conn
  remote : Conn
  deriving DecidableEq, Repr

/-- Source: `type ssPair struct { ss net.Conn; remote net.Conn }`. -/
structure ssPair where
  ss : Conn
  remote : Conn
  deriving DecidableEq, Repr

/-- The four relay methods that are started with `go`. -/
inductive Goroutine where
  | webRemoteToServer (pair : webPair)
  | webServerToRemote (pair : webPair)
  | ssRemoteToServer (pair : ssPair)
  | ssServerToRemote (pair : ssPair)
  deriving DecidableEq, Repr

/-- The log calls of `dispatchConnection` that do not end the process. -/
inductive LogLine where
  | webDialFailed
  | nonSSTraffic
  | replyWriteFailed
  | discardReadFailed
  deriving DecidableEq, Repr

/-- One call made by the source, with its outcome.
`readAtLeast c n m r` is `io.ReadAtLeast(c, make([]byte, n), m)`, `r = none`
when it reports an error; `write c d ok` is `c.Write(d)` with `ok` for
`err == nil`; `copy dst src ok` is `io.Copy(dst, src)`; `close c` is
`go c.Close()`; `fatal` is `log.Fatal(err)`. -/
inductive Ev where
  | setReadDeadline (c : Conn) (seconds : Option Nat)
  | readAtLeast (c : Conn) (bufLen min : Nat) (res : Option Bytes)
  | readTillDrain (c : Conn) (res : Option Bytes)
  | write (c : Conn) (data : Bytes) (ok : Bool)
  | copy (dst src : Conn) (ok : Bool)
  | dial (c : Conn) (ok : Bool)
  | close (c : Conn)
  | spawn (g : Goroutine)
  | log (l : LogLine)
  | fatal
  deriving DecidableEq, Repr

/-- How a call of `dispatchConnection` ends: it returns to the runtime, or the
whole process exits (`log.Fatal` calls `os.Exit(1)`). -/
inductive Exit where
  | returned
  | processExit
  deriving DecidableEq, Repr

structure Run where
  trace : List Ev
  exit : Exit
  deriving DecidableEq, Repr

/-- The result of a relay loop run with some fuel: the calls made so far and
whether the method has returned. -/
structure LoopRun where
  trace : List Ev
  returned : Bool
  deriving DecidableEq, Repr

/-- The functions of package `gqserver` used by the server, as parameters:
functions of the byte values they are given (they do not write into the slice).
`ParseClientHello` gives `none` for `err != nil`. `IsSS` also records the
nonce in `sta.UsedRandom`; that effect stays inside `gqserver` and is not
visible to the dispatcher, which only reads the boolean. -/
structure Lib (CH St : Type) where
  ParseClientHello : Bytes → Option CH
  IsSS : CH → St → Bool
  ComposeReply : CH → Bytes
  PeelRecordLayer : Bytes → Bytes
  AddRecordLayer : Bytes → Bytes → Bytes → Bytes

/-- Outcomes of the network calls of one `dispatchConnection`.
`firstSegment` is what the peer delivers before the 3 second deadline
(`none`: error or timeout); `drain c` is the result of the `c`-th
`ReadTillDrain(conn)`. -/
structure Net where
  firstSegment : Option Bytes
  webDial : Bool
  webWrite : Bool
  replyWrite : Bool
  drain : Nat → Option Bytes
  ssDial : Bool

/-- Outcomes of the network calls of the relay loops, by iteration. -/
structure RelayNet where
  copyToRemote : Bool
  copyToWeb : Nat → Bool
  drain : Nat → Option Bytes
  ssWrite : Nat → Bool
  ssRead : Nat → Option Bytes
  remoteWrite : Nat → Bool

/-! ## Predicates on events -/

def Ev.isSpawn : Ev → Bool
  | .spawn _ => true
  | _ => false

def Ev.isDial : Ev → Bool
  | .dial _ _ => true
  | _ => false

def Ev.isClose : Ev → Bool
  | .close _ => true
  | _ => false

def Ev.isLog : Ev → Bool
  | .log _ => true
  | _ => false

def Ev.isReadTillDrain : Ev → Bool
  | .readTillDrain _ _ => true
  | _ => false

/-- A write call on connection `c`. -/
def Ev.writesTo (c : Conn) : Ev → Bool
  | .write d _ _ => d == c
  | .copy d _ _ => d == c
  | _ => false

/-- A read call on connection `c`. -/
def Ev.readsFrom (c : Conn) : Ev → Bool
  | .readAtLeast d _ _ _ => d == c
  | .readTillDrain d _ => d == c
  | .copy _ s _ => s == c
  | _ => false

/-- A read, copy, write or dial that reported an error. -/
def Ev.failed : Ev → Bool
  | .readAtLeast _ _ _ none => true
  | .readTillDrain _ none => true
  | .write _ _ false => true
  | .copy _ _ false => true
  | .dial _ false => true
  | _ => false

/-- The failures before a relay is started that `dispatchConnection` handles
by closing the client: the first read, the web dial, the write of the reply, a
discard read. -/
def Ev.preRelayFailure : Ev → Bool
  | .readAtLeast c _ _ none => c == .client
  | .readTillDrain c none => c == .client
  | .write c _ ok => c == .client && !ok
  | .dial c ok => c == .webServer && !ok
  | _ => false

def Goroutine.conns : Goroutine → List Conn
  | .webRemoteToServer p => [p.webServer, p.remote]
  | .webServerToRemote p => [p.webServer, p.remote]
  | .ssRemoteToServer p => [p.ss, p.remote]
  | .ssServerToRemote p => [p.ss, p.remote]

/-- The connections an event touches. -/
def Ev.conns : Ev → List Conn
  | .setReadDeadline c _ => [c]
  | .readAtLeast c _ _ _ => [c]
  | .readTillDrain c _ => [c]
  | .write c _ _ => [c]
  | .copy d s _ => [d, s]
  | .dial c _ => [c]
  | .close c => [c]
  | .spawn g => g.conns
  | .log _ => []
  | .fatal => []

/-! ## The relay -/

/-- `io.ReadAtLeast(r, buf, min)` on a connection that delivers `delivered`:
at most `bufLen` bytes are taken, and fewer than `min` bytes is an error. -/
def ReadAtLeast (delivered : Option Bytes) (bufLen min : Nat) : Option Bytes :=
  match delivered with
  | none => none
  | some d => if min ≤ (d.take bufLen).length then some (d.take bufLen) else none

def webPair.closePipe (pair : webPair) : List Ev :=
  [.close pair.webServer, .close pair.remote]

def ssPair.closePipe (pair : ssPair) : List Ev :=
  [.close pair.ss, .close pair.remote]

def webPair.serverToRemote (pair : webPair) (net : RelayNet) : LoopRun :=
  if net.copyToRemote then
    ⟨[.copy pair.remote pair.webServer true], true⟩
  else
    ⟨.copy pair.remote pair.webServer false :: pair.closePipe, true⟩

def webPair.remoteToServer (pair : webPair) (net : RelayNet) : Nat → Nat → LoopRun
  | 0, _ => ⟨[], false⟩
  | fuel + 1, k =>
    if net.copyToWeb k then
      let r := webPair.remoteToServer pair net fuel (k + 1)
      ⟨.copy pair.webServer pair.remote true :: r.trace, r.returned⟩
    else
      ⟨.copy pair.webServer pair.remote false :: pair.closePipe, true⟩

def ssPair.remoteToServer {CH St : Type} (lib : Lib CH St) (pair : ssPair) (net : RelayNet) :
    Nat → Nat → LoopRun
  | 0, _ => ⟨[], false⟩
  | fuel + 1, k =>
    match net.drain k with
    | none => ⟨.readTillDrain pair.remote none :: pair.closePipe, true⟩
    | some data =>
      let data1 := lib.PeelRecordLayer data
      if net.ssWrite k then
        let r := ssPair.remoteToServer lib pair net fuel (k + 1)
        ⟨.readTillDrain pair.remote (some data) :: .write pair.ss data1 true :: r.trace,
          r.returned⟩
      else
        ⟨.readTillDrain pair.remote (some data) :: .write pair.ss data1 false :: pair.closePipe,
          true⟩

def ssPair.serverToRemote {CH St : Type} (lib : Lib CH St) (pair : ssPair) (net : RelayNet) :
    Nat → Nat → LoopRun
  | 0, _ => ⟨[], false⟩
  | fuel + 1, k =>
    match ReadAtLeast (net.ssRead k) 10240 1 with
    | none => ⟨.readAtLeast pair.ss 10240 1 none :: pair.closePipe, true⟩
    | some data =>
      let data1 := lib.AddRecordLayer data [0x17] [0x03, 0x03]
      if net.remoteWrite k then
        let r := ssPair.serverToRemote lib pair net fuel (k + 1)
        ⟨.readAtLeast pair.ss 10240 1 (some data) :: .write pair.remote data1 true :: r.trace,
          r.returned⟩
      else
        ⟨.readAtLeast pair.ss 10240 1 (some data) :: .write pair.remote data1 false
          :: pair.closePipe, true⟩

/-! ## The dispatcher -/

def makeWebPipe (conn : Conn) (net : Net) : List Ev × Option webPair :=
  if net.webDial then
    ([.dial .webServer true], some ⟨.webServer, conn⟩)
  else
    ([.dial .webServer false], none)

def makeSSPipe (conn : Conn) (net : Net) : List Ev × Option ssPair :=
  if net.ssDial then
    ([.dial .ss true], some ⟨.ss, conn⟩)
  else
    ([.dial .ss false], none)

/-- The closure `goWeb` of `dispatchConnection`. -/
def goWeb (conn : Conn) (net : Net) (data : Bytes) : List Ev :=
  match makeWebPipe conn net with
  | (evs, none) => evs ++ [.log .webDialFailed, .close conn]
  | (evs, some pair) =>
    evs ++ [.write pair.webServer data net.webWrite,
      .spawn (.webRemoteToServer pair), .spawn (.webServerToRemote pair)]

/-- The closure `goSS` of `dispatchConnection`: on a dial error `log.Fatal`
ends the process. -/
def goSS (conn : Conn) (net : Net) : Run :=
  match makeSSPipe conn net with
  | (evs, none) => ⟨evs ++ [.fatal], .processExit⟩
  | (evs, some pair) =>
    ⟨evs ++ [.spawn (.ssRemoteToServer pair), .spawn (.ssServerToRemote pair)], .returned⟩

/-- The loop `for c := 0; c < 2; c++ { ReadTillDrain(conn) ... }`, with
`todo = 2 - c` iterations left; the boolean tells whether the loop completed
(`false`: a read failed and the dispatcher returned). -/
def discardLoop (conn : Conn) (net : Net) : Nat → Nat → List Ev × Bool
  | 0, _ => ([], true)
  | todo + 1, c =>
    match net.drain c with
    | none => ([.readTillDrain conn none, .log .discardReadFailed, .close conn], false)
    | some d =>
      let r := discardLoop conn net todo (c + 1)
      (.readTillDrain conn (some d) :: r.1, r.2)

def dispatchConnection {CH St : Type} (lib : Lib CH St) (conn : Conn) (net : Net) (sta : St) :
    Run :=
  match ReadAtLeast net.firstSegment 1500 1 with
  | none =>
    ⟨[.setReadDeadline conn (some 3), .readAtLeast conn 1500 1 none, .close conn], .returned⟩
  | some data =>
    let head : List Ev := [.setReadDeadline conn (some 3), .readAtLeast conn 1500 1 (some data),
      .setReadDeadline conn none]
    match lib.ParseClientHello data with
    | none => ⟨head ++ goWeb conn net data, .returned⟩
    | some ch =>
      if lib.IsSS ch sta then
        let reply := lib.ComposeReply ch
        if net.replyWrite then
          match discardLoop conn net 2 0 with
          | (evs, false) => ⟨head ++ .write conn reply true :: evs, .returned⟩
          | (evs, true) =>
            let r := goSS conn net
            ⟨head ++ .write conn reply true :: (evs ++ r.trace), r.exit⟩
        else
          ⟨head ++ [.write conn reply false, .log .replyWriteFailed, .close conn], .returned⟩
      else
        ⟨head ++ .log .nonSSTraffic :: goWeb conn net data, .returned⟩

/-! ## Checks on traces, used in the proofs -/

/-- The calls left after a handled failure: an optional log line, then the
close of the client. -/
def terminalTail : List Ev → Bool
  | [.close c] => c == .client
  | [.log _, .close c] => c == .client
  | _ => false

/-- Walks a suffix of the trace of `r`: after every handled failure the rest is
a `terminalTail`, the run starts no goroutine and returns, and unless the
failure is the web dial itself the run dials nothing. -/
def Run.stopsAfterFailure (r : Run) : List Ev → Bool
  | [] => true
  | e :: post =>
    (!e.preRelayFailure ||
      (terminalTail post && r.trace.all (fun x => !x.isSpawn) && r.exit == .returned
        && (e.isDial || r.trace.all (fun x => !x.isDial))))
    && Run.stopsAfterFailure r post

/-- No event of the trace touches the tunnel backend connection. -/
def avoidsSS (t : List Ev) : Bool := t.all (fun x => !x.conns.contains .ss)

/-- A relay method has torn the pair down on its first error: it returned, and
its calls are successful reads, copies and writes, then the one that failed,
then the two closes of `closePipe`, and nothing more. -/
def TornDown (backend remote : Conn) (r : LoopRun) : Prop :=
  r.returned = true ∧
  ∃ (pre : List Ev) (e : Ev), r.trace = pre ++ [e, .close backend, .close remote] ∧
    e.failed = true ∧ ∀ x ∈ pre, x.failed = false ∧ x.isClose = false

/-! ## The replay cache sweep -/

/-- A key of `UsedRandom`: `[32]byte`. -/
abbrev Nonce := { l : Bytes // l.length = 32 }

/-- Source: `UsedRandom map[[32]byte]int`, as the list of its entries, in the
order in which `range` visits them (any order: the list is arbitrary). A map
has no two entries with the same key (`WellFormed`). -/
abbrev UsedRandom := List (Nonce × Int)

def UsedRandom.WellFormed (m : UsedRandom) : Prop := (m.map Prod.fst).Nodup

/-- The value of a Go `int` (64 bits, two's complement) after wrap-around. -/
def wrapInt (x : Int) : Int := (x + 2 ^ 63) % 2 ^ 64 - 2 ^ 63

/-- Modelled from the spec: `State.DelUsedRandom` of package `gqserver` is not in
this file of the repository; the spec has the sweeper delete entries of the
replay cache, so it removes the entry of `key`. -/
def DelUsedRandom (m : UsedRandom) (key : Nonce) : UsedRandom :=
  m.filter (fun e => decide (e.1 ≠ key))

/-- One pass of the body of `usedRandomCleaner` after the sleep, at clock value
`now = int(sta.Now().Unix())`: the `range` loop over the entries. -/
def usedRandomCleaner.sweep (now : Int) (m : UsedRandom) : UsedRandom :=
  m.foldl (fun acc e => if wrapInt (now - e.2) > 12 * 3600 then DelUsedRandom acc e.1 else acc) m

/-- The endless loop of `usedRandomCleaner`: pass `k` runs at clock value
`clock k`; with fuel for the number of passes. -/
def usedRandomCleaner (clock : Nat → Int) : Nat → Nat → UsedRandom → UsedRandom
  | 0, _, m => m
  | fuel + 1, k, m => usedRandomCleaner clock fuel (k + 1) (usedRandomCleaner.sweep (clock k) m)

/-! ## Sample inputs -/

def sampleNonce (b : Byte) : Nonce := ⟨List.replicate 32 b, List.length_replicate 32 b⟩

/-- Two nonces, seen at second 1000 and at second 50000. -/
def sampleCache : UsedRandom := [(sampleNonce 0, 1000), (sampleNonce 1, 50000)]


/-- A library whose parser accepts exactly the segments that start with the
handshake byte `0x16` and whose `IsSS` accepts the second byte `1`. -/
def sampleLib : Lib Bytes Unit :=
  ⟨fun d => if d.head? = some 0x16 then some d else none,
   fun ch _ => ch.tail.head? = some 1,
   fun ch => 0x16 :: ch.take 1,
   fun d => d.drop 5,
   fun d t v => t ++ v ++ [Fin.ofNat (d.length / 256), Fin.ofNat (d.length % 256)] ++ d⟩

/-- As `sampleLib`, but the parser also wants at least three bytes. -/
def sampleLibStrict : Lib Bytes Unit :=
  ⟨fun d => if d.head? = some 0x16 ∧ 3 ≤ d.length then some d else none,
   fun ch _ => ch.tail.head? = some 1,
   fun ch => 0x16 :: ch.take 1,
   fun d => d.drop 5,
   fun d t v => t ++ v ++ [Fin.ofNat (d.length / 256), Fin.ofNat (d.length % 256)] ++ d⟩

/-- An HTTP-like first segment ("GE"), every later call succeeding. -/
def sampleNetWeb : Net := ⟨some [0x47, 0x45], true, true, true, fun _ => some [1], true⟩

/-- A first segment that parses and authenticates, every later call succeeding. -/
def sampleNetSS : Net := ⟨some [0x16, 1], true, true, true, fun _ => some [1], true⟩

/-- A first segment that parses but does not authenticate. -/
def sampleNetProbe : Net := ⟨some [0x16, 0], true, true, true, fun _ => some [1], true⟩

/-- A relay on which the third call of every kind fails (index 2) and the
single web-to-client copy fails. -/
def sampleRelayBreaks : RelayNet :=
  ⟨false, fun i => decide (i < 2), fun i => if i < 2 then some [0x17, 3, 3, 0, 1, 7] else none,
   fun _ => true, fun i => if i < 2 then some [7, 8] else none, fun _ => true⟩

/-- A relay on which every copy ends without an error: the peers closed their
connections in an orderly way and `io.Copy` reports `nil` at end of stream. -/
def sampleRelayEOF : RelayNet :=
  ⟨true, fun _ => true, fun _ => none, fun _ => true, fun _ => none, fun _ => true⟩

/-- A peer that sends nothing within the deadline. -/
def sampleNetSilent : Net := ⟨none, true, true, true, fun _ => some [1], true⟩

/-- As `sampleNetWeb`, with the web backend down. -/
def sampleNetWebDown : Net := ⟨some [0x47, 0x45], false, true, true, fun _ => some [1], true⟩

/-- As `sampleNetSS`, but the write of the reply fails. -/
def sampleNetReplyFails : Net := ⟨some [0x16, 1], true, true, false, fun _ => some [1], true⟩

/-- As `sampleNetSS`, but the second discard read fails. -/
def sampleNetDiscardFails : Net :=
  ⟨some [0x16, 1], true, true, true, fun c => if c = 0 then some [1] else none, true⟩

/-- As `sampleNetSS`, with the tunnel backend down: the dial to it fails. -/
def sampleNetSSDown : Net := ⟨some [0x16, 1], true, true, true, fun _ => some [1], false⟩

/-! ## Helper lemmas -/

theorem ReadAtLeast_length {delivered : Option Bytes} {bufLen min : Nat} {data : Bytes}
    (h : ReadAtLeast delivered bufLen min = some data) :
    min ≤ data.length ∧ data.length ≤ bufLen := by
  unfold ReadAtLeast at h
  cases delivered with
  | none => simp at h
  | some d =>
    simp only at h
    split at h
    · rename_i hmin
      cases h
      exact ⟨hmin, by simp⟩
    · simp at h

theorem goWeb_dial_ok (conn : Conn) (net : Net) (data : Bytes) (h : net.webDial = true) :
    goWeb conn net data = [.dial .webServer true, .write .webServer data net.webWrite,
      .spawn (.webRemoteToServer ⟨.webServer, conn⟩),
      .spawn (.webServerToRemote ⟨.webServer, conn⟩)] := by
  simp [goWeb, makeWebPipe, h]

theorem goWeb_dial_failed (conn : Conn) (net : Net) (data : Bytes) (h : net.webDial = false) :
    goWeb conn net data = [.dial .webServer false, .log .webDialFailed, .close conn] := by
  simp [goWeb, makeWebPipe, h]

theorem terminalTail_shape {post : List Ev} (h : terminalTail post = true) :
    post = [.close .client] ∨ ∃ l, post = [.log l, .close .client] := by
  unfold terminalTail at h
  split at h
  · rw [beq_iff_eq] at h
    subst h
    exact Or.inl rfl
  · rw [beq_iff_eq] at h
    subst h
    exact Or.inr ⟨_, rfl⟩
  · cases h

theorem stopsAfterFailure_sound (r : Run) :
    ∀ (pre s : List Ev) (e : Ev) (post : List Ev), r.stopsAfterFailure s = true →
      s = pre ++ e :: post → e.preRelayFailure = true →
      terminalTail post = true ∧ r.trace.all (fun x => !x.isSpawn) = true ∧
        r.exit = .returned ∧ (e.isDial = false → r.trace.all (fun x => !x.isDial) = true) := by
  intro pre
  induction pre with
  | nil =>
    intro s e post hs hsplit hfail
    subst hsplit
    simp only [List.nil_append, Run.stopsAfterFailure, hfail, Bool.not_true, Bool.false_or,
      Bool.and_eq_true, beq_iff_eq, Bool.or_eq_true] at hs
    obtain ⟨⟨⟨⟨h1, h2⟩, h3⟩, h4⟩, _⟩ := hs
    refine ⟨h1, h2, h3, ?_⟩
    intro hd
    rcases h4 with h4 | h4
    · rw [hd] at h4; cases h4
    · exact h4
  | cons a pre ih =>
    intro s e post hs hsplit hfail
    subst hsplit
    simp only [List.cons_append, Run.stopsAfterFailure, Bool.and_eq_true] at hs
    exact ih _ e post hs.2 rfl hfail

theorem dispatchConnection_stopsAfterFailure {CH St : Type} (lib : Lib CH St) (net : Net)
    (sta : St) :
    (dispatchConnection lib .client net sta).stopsAfterFailure
      (dispatchConnection lib .client net sta).trace = true := by
  cases hread : ReadAtLeast net.firstSegment 1500 1 with
  | none => simp only [dispatchConnection, hread]; rfl
  | some data =>
    cases hparse : lib.ParseClientHello data with
    | none =>
      cases hd : net.webDial
      · simp only [dispatchConnection, hread, hparse, goWeb_dial_failed _ _ _ hd]; rfl
      · simp only [dispatchConnection, hread, hparse, goWeb_dial_ok _ _ _ hd]; rfl
    | some ch =>
      cases hss : lib.IsSS ch sta with
      | false =>
        cases hd : net.webDial
        · simp only [dispatchConnection, hread, hparse, hss, goWeb_dial_failed _ _ _ hd]; rfl
        · simp only [dispatchConnection, hread, hparse, hss, goWeb_dial_ok _ _ _ hd]; rfl
      | true =>
        cases hreply : net.replyWrite with
        | false => simp only [dispatchConnection, hread, hparse, hss, hreply]; rfl
        | true =>
          cases h0 : net.drain 0 with
          | none =>
            simp only [dispatchConnection, hread, hparse, hss, hreply, discardLoop, h0]; rfl
          | some d0 =>
            cases h1 : net.drain 1 with
            | none =>
              simp only [dispatchConnection, hread, hparse, hss, hreply, discardLoop, h0, h1]
              rfl
            | some d1 =>
              cases hsd : net.ssDial
              · simp only [dispatchConnection, hread, hparse, hss, hreply, discardLoop, h0, h1,
                  goSS, makeSSPipe, hsd]
                rfl
              · simp only [dispatchConnection, hread, hparse, hss, hreply, discardLoop, h0, h1,
                  goSS, makeSSPipe, hsd]
                rfl

theorem avoidsSS_sound {t : List Ev} (h : avoidsSS t = true) {e : Ev} (he : e ∈ t) :
    Conn.ss ∉ e.conns := by
  unfold avoidsSS at h
  rw [List.all_eq_true] at h
  have := h e he
  simpa using this

/-- Every run either never touches the tunnel backend, or went through the
whole authenticated path up to the dial. -/
theorem dispatchConnection_cases {CH St : Type} (lib : Lib CH St) (net : Net) (sta : St) :
    avoidsSS (dispatchConnection lib .client net sta).trace = true ∨
    ∃ data ch d0 d1, ReadAtLeast net.firstSegment 1500 1 = some data ∧
      lib.ParseClientHello data = some ch ∧ lib.IsSS ch sta = true ∧
      net.replyWrite = true ∧ net.drain 0 = some d0 ∧ net.drain 1 = some d1 ∧
      (dispatchConnection lib .client net sta).trace =
        [.setReadDeadline .client (some 3), .readAtLeast .client 1500 1 (some data),
          .setReadDeadline .client none, .write .client (lib.ComposeReply ch) true,
          .readTillDrain .client (some d0), .readTillDrain .client (some d1),
          .dial .ss net.ssDial] ++
        (if net.ssDial then [.spawn (.ssRemoteToServer ⟨.ss, .client⟩),
          .spawn (.ssServerToRemote ⟨.ss, .client⟩)] else [.fatal]) := by
  cases hread : ReadAtLeast net.firstSegment 1500 1 with
  | none => left; simp only [dispatchConnection, hread]; rfl
  | some data =>
    cases hparse : lib.ParseClientHello data with
    | none =>
      left
      cases hd : net.webDial
      · simp only [dispatchConnection, hread, hparse, goWeb_dial_failed _ _ _ hd]; rfl
      · simp only [dispatchConnection, hread, hparse, goWeb_dial_ok _ _ _ hd]; rfl
    | some ch =>
      cases hss : lib.IsSS ch sta with
      | false =>
        left
        cases hd : net.webDial
        · simp only [dispatchConnection, hread, hparse, hss, goWeb_dial_failed _ _ _ hd]; rfl
        · simp only [dispatchConnection, hread, hparse, hss, goWeb_dial_ok _ _ _ hd]; rfl
      | true =>
        cases hreply : net.replyWrite with
        | false => left; simp only [dispatchConnection, hread, hparse, hss, hreply]; rfl
        | true =>
          cases h0 : net.drain 0 with
          | none =>
            left
            simp only [dispatchConnection, hread, hparse, hss, hreply, discardLoop, h0]; rfl
          | some d0 =>
            cases h1 : net.drain 1 with
            | none =>
              left
              simp only [dispatchConnection, hread, hparse, hss, hreply, discardLoop, h0, h1]
              rfl
            | some d1 =>
              right
              refine ⟨data, ch, d0, d1, rfl, hparse, hss, rfl, rfl, rfl, ?_⟩
              cases hsd : net.ssDial
              · simp [dispatchConnection, hread, hparse, hss, hreply, discardLoop, h0, h1,
                  goSS, makeSSPipe, hsd]
              · simp [dispatchConnection, hread, hparse, hss, hreply, discardLoop, h0, h1,
                  goSS, makeSSPipe, hsd]

theorem webPair_remoteToServer_conns (pair : webPair) (net : RelayNet) :
    ∀ (fuel k : Nat) (e : Ev), e ∈ (pair.remoteToServer net fuel k).trace →
      ∀ c ∈ e.conns, c = pair.webServer ∨ c = pair.remote := by
  intro fuel
  induction fuel with
  | zero => intro k e he; simp [webPair.remoteToServer] at he
  | succ fuel ih =>
    intro k e he c hc
    unfold webPair.remoteToServer at he
    split at he
    · simp only [List.mem_cons] at he
      rcases he with he | he
      · subst he
        simpa [Ev.conns] using hc
      · exact ih _ e he c hc
    · simp only [webPair.closePipe, List.mem_cons, List.mem_singleton, List.not_mem_nil,
        or_false] at he
      rcases he with he | he | he <;> subst he <;> simp [Ev.conns] at hc
      · exact hc
      · exact Or.inl hc
      · exact Or.inr hc

theorem webPair_serverToRemote_conns (pair : webPair) (net : RelayNet) (e : Ev)
    (he : e ∈ (pair.serverToRemote net).trace) :
    ∀ c ∈ e.conns, c = pair.webServer ∨ c = pair.remote := by
  intro c hc
  unfold webPair.serverToRemote at he
  split at he
  · simp only [List.mem_singleton] at he
    subst he
    simp [Ev.conns] at hc
    exact hc.symm
  · simp only [webPair.closePipe, List.mem_cons, List.mem_singleton, List.not_mem_nil,
      or_false] at he
    rcases he with he | he | he <;> subst he <;> simp [Ev.conns] at hc
    · exact hc.symm
    · exact Or.inl hc
    · exact Or.inr hc

/-! ## The dispatcher: fallback and authenticated path -/

/-- C1. When the first read returns `data` and `ParseClientHello` reports an
error on it and the web dial succeeds, the dispatcher's calls are: set the
deadline, read, clear the deadline, dial the web backend, one write of exactly
`data` to it, and only then the start of the two web relay directions; it
returns, the only write to the web backend is that one, and no call writes to
the client. `data` has 1 to 1500 bytes. -/
theorem dispatchConnection_fallback_forwards_first_read {CH St : Type} (lib : Lib CH St)
    (net : Net) (sta : St) (data : Bytes)
    (hread : ReadAtLeast net.firstSegment 1500 1 = some data)
    (hparse : lib.ParseClientHello data = none)
    (hdial : net.webDial = true) :
    (1 ≤ data.length ∧ data.length ≤ 1500) ∧
    dispatchConnection lib .client net sta =
      ⟨[.setReadDeadline .client (some 3), .readAtLeast .client 1500 1 (some data),
        .setReadDeadline .client none,
        .dial .webServer true, .write .webServer data net.webWrite,
        .spawn (.webRemoteToServer ⟨.webServer, .client⟩),
        .spawn (.webServerToRemote ⟨.webServer, .client⟩)], .returned⟩ ∧
    (dispatchConnection lib .client net sta).trace.filter (Ev.writesTo .webServer) =
      [.write .webServer data net.webWrite] ∧
    (dispatchConnection lib .client net sta).trace.filter (Ev.writesTo .client) = [] := by
  have hrun : dispatchConnection lib .client net sta =
      ⟨[.setReadDeadline .client (some 3), .readAtLeast .client 1500 1 (some data),
        .setReadDeadline .client none,
        .dial .webServer true, .write .webServer data net.webWrite,
        .spawn (.webRemoteToServer ⟨.webServer, .client⟩),
        .spawn (.webServerToRemote ⟨.webServer, .client⟩)], .returned⟩ := by
    simp [dispatchConnection, hread, hparse, goWeb_dial_ok _ _ _ hdial]
  refine ⟨ReadAtLeast_length hread, hrun, ?_, ?_⟩
  · rw [hrun]; rfl
  · rw [hrun]; rfl

theorem dispatchConnection_fallback_forwards_first_read_witness :
    ((1 ≤ [(0x47 : Byte), 0x45].length ∧ [(0x47 : Byte), 0x45].length ≤ 1500) ∧
    dispatchConnection sampleLib .client sampleNetWeb () =
      ⟨[.setReadDeadline .client (some 3), .readAtLeast .client 1500 1 (some [0x47, 0x45]),
        .setReadDeadline .client none,
        .dial .webServer true, .write .webServer [0x47, 0x45] sampleNetWeb.webWrite,
        .spawn (.webRemoteToServer ⟨.webServer, .client⟩),
        .spawn (.webServerToRemote ⟨.webServer, .client⟩)], .returned⟩ ∧
    (dispatchConnection sampleLib .client sampleNetWeb ()).trace.filter (Ev.writesTo .webServer) =
      [.write .webServer [0x47, 0x45] sampleNetWeb.webWrite] ∧
    (dispatchConnection sampleLib .client sampleNetWeb ()).trace.filter (Ev.writesTo .client)
      = []) :=
  dispatchConnection_fallback_forwards_first_read sampleLib sampleNetWeb () [0x47, 0x45]
    (by decide) (by decide) (by decide)

/-- C2. When parsing succeeds, `IsSS` is true and every call succeeds, the
dispatcher's calls after the first read are exactly: write `ComposeReply ch` to
the client, two `ReadTillDrain` on the client, dial the tunnel backend, start
the two tunnel relay directions. Exactly two discard reads are made and the
dispatcher itself writes nothing to either backend. -/
theorem dispatchConnection_authenticated_path {CH St : Type} (lib : Lib CH St)
    (net : Net) (sta : St) (data : Bytes) (ch : CH) (d0 d1 : Bytes)
    (hread : ReadAtLeast net.firstSegment 1500 1 = some data)
    (hparse : lib.ParseClientHello data = some ch)
    (hss : lib.IsSS ch sta = true)
    (hreply : net.replyWrite = true)
    (h0 : net.drain 0 = some d0) (h1 : net.drain 1 = some d1)
    (hdial : net.ssDial = true) :
    dispatchConnection lib .client net sta =
      ⟨[.setReadDeadline .client (some 3), .readAtLeast .client 1500 1 (some data),
        .setReadDeadline .client none,
        .write .client (lib.ComposeReply ch) true,
        .readTillDrain .client (some d0), .readTillDrain .client (some d1),
        .dial .ss true,
        .spawn (.ssRemoteToServer ⟨.ss, .client⟩),
        .spawn (.ssServerToRemote ⟨.ss, .client⟩)], .returned⟩ ∧
    ((dispatchConnection lib .client net sta).trace.filter Ev.isReadTillDrain).length = 2 ∧
    (dispatchConnection lib .client net sta).trace.filter (Ev.writesTo .ss) = [] ∧
    (dispatchConnection lib .client net sta).trace.filter (Ev.writesTo .webServer) = [] := by
  have hrun : dispatchConnection lib .client net sta =
      ⟨[.setReadDeadline .client (some 3), .readAtLeast .client 1500 1 (some data),
        .setReadDeadline .client none,
        .write .client (lib.ComposeReply ch) true,
        .readTillDrain .client (some d0), .readTillDrain .client (some d1),
        .dial .ss true,
        .spawn (.ssRemoteToServer ⟨.ss, .client⟩),
        .spawn (.ssServerToRemote ⟨.ss, .client⟩)], .returned⟩ := by
    simp [dispatchConnection, hread, hparse, hss, hreply, discardLoop, h0, h1, goSS, makeSSPipe,
      hdial]
  refine ⟨hrun, ?_, ?_, ?_⟩ <;> (rw [hrun]; rfl)

theorem dispatchConnection_authenticated_path_witness :
    dispatchConnection sampleLib .client sampleNetSS () =
      ⟨[.setReadDeadline .client (some 3), .readAtLeast .client 1500 1 (some [0x16, 1]),
        .setReadDeadline .client none,
        .write .client (sampleLib.ComposeReply [0x16, 1]) true,
        .readTillDrain .client (some [1]), .readTillDrain .client (some [1]),
        .dial .ss true,
        .spawn (.ssRemoteToServer ⟨.ss, .client⟩),
        .spawn (.ssServerToRemote ⟨.ss, .client⟩)], .returned⟩ ∧
    ((dispatchConnection sampleLib .client sampleNetSS ()).trace.filter
      Ev.isReadTillDrain).length = 2 ∧
    (dispatchConnection sampleLib .client sampleNetSS ()).trace.filter (Ev.writesTo .ss) = [] ∧
    (dispatchConnection sampleLib .client sampleNetSS ()).trace.filter (Ev.writesTo .webServer)
      = [] :=
  dispatchConnection_authenticated_path sampleLib sampleNetSS () [0x16, 1] [0x16, 1] [1] [1]
    (by decide) (by decide) (by decide) (by decide) (by decide) (by decide) (by decide)

/-- C3. Two runs on the same first-read bytes `data` with the same outcomes of
the web dial and web write: in run A parsing succeeds and `IsSS` is false, in
run B parsing fails. Run B is dial, then either (dial ok) one write of `data`
and the two web relay directions, or (dial failed) a log line and the close of
the client; run A is run B with the one log line `nonSSTraffic` put in after
the first read. So the calls other than log lines are the same in both, both
return, and neither writes to the client. -/
theorem dispatchConnection_nonSS_indistinguishable {CHA StA CHB StB : Type}
    (libA : Lib CHA StA) (libB : Lib CHB StB) (netA netB : Net) (staA : StA) (staB : StB)
    (data : Bytes) (ch : CHA)
    (hseg : netA.firstSegment = netB.firstSegment)
    (hdial : netA.webDial = netB.webDial)
    (hwrite : netA.webWrite = netB.webWrite)
    (hread : ReadAtLeast netA.firstSegment 1500 1 = some data)
    (hparseA : libA.ParseClientHello data = some ch)
    (hssA : libA.IsSS ch staA = false)
    (hparseB : libB.ParseClientHello data = none) :
    (dispatchConnection libB .client netB staB).trace =
      [.setReadDeadline .client (some 3), .readAtLeast .client 1500 1 (some data),
        .setReadDeadline .client none] ++
      (if netB.webDial then
        [.dial .webServer true, .write .webServer data netB.webWrite,
          .spawn (.webRemoteToServer ⟨.webServer, .client⟩),
          .spawn (.webServerToRemote ⟨.webServer, .client⟩)]
      else [.dial .webServer false, .log .webDialFailed, .close .client]) ∧
    (dispatchConnection libA .client netA staA).trace =
      [.setReadDeadline .client (some 3), .readAtLeast .client 1500 1 (some data),
        .setReadDeadline .client none] ++ .log .nonSSTraffic ::
      (dispatchConnection libB .client netB staB).trace.drop 3 ∧
    (dispatchConnection libA .client netA staA).trace.filter (fun e => !e.isLog) =
      (dispatchConnection libB .client netB staB).trace.filter (fun e => !e.isLog) ∧
    (dispatchConnection libA .client netA staA).exit = .returned ∧
    (dispatchConnection libB .client netB staB).exit = .returned ∧
    (dispatchConnection libA .client netA staA).trace.filter (Ev.writesTo .client) = [] ∧
    (dispatchConnection libB .client netB staB).trace.filter (Ev.writesTo .client) = [] := by
  have hreadB : ReadAtLeast netB.firstSegment 1500 1 = some data := by rw [← hseg]; exact hread
  cases hd : netB.webDial with
  | true =>
    have hdA : netA.webDial = true := by rw [hdial, hd]
    have hA : dispatchConnection libA .client netA staA =
        ⟨[.setReadDeadline .client (some 3), .readAtLeast .client 1500 1 (some data),
          .setReadDeadline .client none, .log .nonSSTraffic,
          .dial .webServer true, .write .webServer data netB.webWrite,
          .spawn (.webRemoteToServer ⟨.webServer, .client⟩),
          .spawn (.webServerToRemote ⟨.webServer, .client⟩)], .returned⟩ := by
      simp [dispatchConnection, hread, hparseA, hssA, goWeb_dial_ok _ _ _ hdA, hwrite]
    have hB : dispatchConnection libB .client netB staB =
        ⟨[.setReadDeadline .client (some 3), .readAtLeast .client 1500 1 (some data),
          .setReadDeadline .client none,
          .dial .webServer true, .write .webServer data netB.webWrite,
          .spawn (.webRemoteToServer ⟨.webServer, .client⟩),
          .spawn (.webServerToRemote ⟨.webServer, .client⟩)], .returned⟩ := by
      simp [dispatchConnection, hreadB, hparseB, goWeb_dial_ok _ _ _ hd]
    rw [hA, hB]
    refine ⟨rfl, rfl, rfl, rfl, rfl, rfl, rfl⟩
  | false =>
    have hdA : netA.webDial = false := by rw [hdial, hd]
    have hA : dispatchConnection libA .client netA staA =
        ⟨[.setReadDeadline .client (some 3), .readAtLeast .client 1500 1 (some data),
          .setReadDeadline .client none, .log .nonSSTraffic,
          .dial .webServer false, .log .webDialFailed, .close .client], .returned⟩ := by
      simp [dispatchConnection, hread, hparseA, hssA, goWeb_dial_failed _ _ _ hdA]
    have hB : dispatchConnection libB .client netB staB =
        ⟨[.setReadDeadline .client (some 3), .readAtLeast .client 1500 1 (some data),
          .setReadDeadline .client none,
          .dial .webServer false, .log .webDialFailed, .close .client], .returned⟩ := by
      simp [dispatchConnection, hreadB, hparseB, goWeb_dial_failed _ _ _ hd]
    rw [hA, hB]
    refine ⟨rfl, rfl, rfl, rfl, rfl, rfl, rfl⟩

theorem dispatchConnection_nonSS_indistinguishable_witness :
    ((dispatchConnection sampleLib .client sampleNetProbe ()).trace.filter (fun e => !e.isLog) =
      (dispatchConnection sampleLibStrict .client sampleNetProbe ()).trace.filter
        (fun e => !e.isLog)) ∧
    (dispatchConnection sampleLib .client sampleNetProbe ()).trace.filter (Ev.writesTo .client)
      = [] :=
  have h := dispatchConnection_nonSS_indistinguishable sampleLib sampleLibStrict sampleNetProbe
    sampleNetProbe () () [0x16, 0] [0x16, 0] rfl rfl rfl (by decide) (by decide) (by decide)
    (by decide)
  ⟨h.2.2.1, h.2.2.2.2.2.1⟩

/-! ## The dispatcher: the tunnel dial failure -/

/-- C4. With the tunnel backend down and a peer that authenticates and sends
its two follow-up messages, `goSS` runs `log.Fatal`: the run ends with the
failed dial followed by `fatal`, the process exits, and the client connection
is never closed by the dispatcher. The web dial failure of `goWeb` on the same
network closes the client and returns. -/
theorem dispatchConnection_tunnel_dial_failure_exits :
    dispatchConnection sampleLib .client sampleNetSSDown () =
      ⟨[.setReadDeadline .client (some 3), .readAtLeast .client 1500 1 (some [0x16, 1]),
        .setReadDeadline .client none,
        .write .client [0x16, 0x16] true,
        .readTillDrain .client (some [1]), .readTillDrain .client (some [1]),
        .dial .ss false, .fatal], .processExit⟩ ∧
    Ev.close .client ∉ (dispatchConnection sampleLib .client sampleNetSSDown ()).trace ∧
    goSS .client sampleNetSSDown = ⟨[.dial .ss false, .fatal], .processExit⟩ ∧
    goWeb .client ⟨some [0x47], false, true, true, fun _ => none, false⟩ [0x47] =
      [.dial .webServer false, .log .webDialFailed, .close .client] := by
  decide

/-! ## The dispatcher: failures before the relay -/

/-- C8. In every run of `dispatchConnection`, when a call `e` of the trace is a
failed first read, a failed web dial, a failed write of the reply or a failed
discard read, then all that follows `e` is an optional log line and the close of
the client (so no further read or write on the client and no retry), the run
starts no relay goroutine, it returns (the process goes on), and unless `e` is
the web dial itself no backend is dialed in the run. -/
theorem dispatchConnection_pre_relay_failure_terminal {CH St : Type} (lib : Lib CH St)
    (net : Net) (sta : St) (pre : List Ev) (e : Ev) (post : List Ev)
    (hsplit : (dispatchConnection lib .client net sta).trace = pre ++ e :: post)
    (hfail : e.preRelayFailure = true) :
    (post = [.close .client] ∨ ∃ l, post = [.log l, .close .client]) ∧
    (∀ x ∈ post, x.readsFrom .client = false ∧ x.writesTo .client = false) ∧
    (∀ x ∈ (dispatchConnection lib .client net sta).trace, x.isSpawn = false) ∧
    (dispatchConnection lib .client net sta).exit = .returned ∧
    (e.isDial = false →
      ∀ x ∈ (dispatchConnection lib .client net sta).trace, x.isDial = false) := by
  obtain ⟨h1, h2, h3, h4⟩ := stopsAfterFailure_sound _ pre _ e post
    (dispatchConnection_stopsAfterFailure lib net sta) hsplit hfail
  have hshape := terminalTail_shape h1
  refine ⟨hshape, ?_, ?_, h3, ?_⟩
  · intro x hx
    rcases hshape with h | ⟨l, h⟩
    · subst h
      simp only [List.mem_singleton] at hx
      subst hx
      exact ⟨rfl, rfl⟩
    · subst h
      simp only [List.mem_cons, List.mem_singleton, List.not_mem_nil, or_false] at hx
      rcases hx with hx | hx <;> subst hx <;> exact ⟨rfl, rfl⟩
  · intro x hx
    rw [List.all_eq_true] at h2
    simpa using h2 x hx
  · intro hd x hx
    have h := h4 hd
    rw [List.all_eq_true] at h
    simpa using h x hx

theorem dispatchConnection_pre_relay_failure_terminal_witness :
    (dispatchConnection sampleLib .client sampleNetSilent ()).exit = .returned ∧
    (dispatchConnection sampleLib .client sampleNetWebDown ()).exit = .returned ∧
    (dispatchConnection sampleLib .client sampleNetReplyFails ()).exit = .returned ∧
    (dispatchConnection sampleLib .client sampleNetDiscardFails ()).exit = .returned ∧
    (∀ x ∈ (dispatchConnection sampleLib .client sampleNetDiscardFails ()).trace,
      x.isSpawn = false) :=
  ⟨(dispatchConnection_pre_relay_failure_terminal sampleLib sampleNetSilent ()
      [.setReadDeadline .client (some 3)] (.readAtLeast .client 1500 1 none) [.close .client]
      (by decide) (by decide)).2.2.2.1,
   (dispatchConnection_pre_relay_failure_terminal sampleLib sampleNetWebDown ()
      [.setReadDeadline .client (some 3), .readAtLeast .client 1500 1 (some [0x47, 0x45]),
        .setReadDeadline .client none]
      (.dial .webServer false) [.log .webDialFailed, .close .client]
      (by decide) (by decide)).2.2.2.1,
   (dispatchConnection_pre_relay_failure_terminal sampleLib sampleNetReplyFails ()
      [.setReadDeadline .client (some 3), .readAtLeast .client 1500 1 (some [0x16, 1]),
        .setReadDeadline .client none]
      (.write .client [0x16, 0x16] false) [.log .replyWriteFailed, .close .client]
      (by decide) (by decide)).2.2.2.1,
   (dispatchConnection_pre_relay_failure_terminal sampleLib sampleNetDiscardFails ()
      [.setReadDeadline .client (some 3), .readAtLeast .client 1500 1 (some [0x16, 1]),
        .setReadDeadline .client none, .write .client [0x16, 0x16] true,
        .readTillDrain .client (some [1])]
      (.readTillDrain .client none) [.log .discardReadFailed, .close .client]
      (by decide) (by decide)).2.2.2.1,
   (dispatchConnection_pre_relay_failure_terminal sampleLib sampleNetDiscardFails ()
      [.setReadDeadline .client (some 3), .readAtLeast .client 1500 1 (some [0x16, 1]),
        .setReadDeadline .client none, .write .client [0x16, 0x16] true,
        .readTillDrain .client (some [1])]
      (.readTillDrain .client none) [.log .discardReadFailed, .close .client]
      (by decide) (by decide)).2.2.1⟩

/-! ## The dispatcher: who reaches the tunnel backend -/

/-- C10. In every run of `dispatchConnection`: a call that touches the tunnel
backend (the dial of `makeSSPipe`, a write to it, the start of a tunnel relay)
occurs only if the first read gave `data`, `ParseClientHello data` succeeded,
`IsSS` was true, the reply was written and both discard reads succeeded, and
then it comes after those calls. When parsing fails or `IsSS` is false no call
touches the tunnel backend; the dispatcher never writes to it; and the web relay
loops started in that case only use the web backend and the client. -/
theorem dispatchConnection_tunnel_only_authenticated {CH St : Type} (lib : Lib CH St)
    (net : Net) (sta : St) :
    (∀ e ∈ (dispatchConnection lib .client net sta).trace, Conn.ss ∈ e.conns →
      ∃ data ch d0 d1, ReadAtLeast net.firstSegment 1500 1 = some data ∧
        lib.ParseClientHello data = some ch ∧ lib.IsSS ch sta = true ∧
        net.replyWrite = true ∧ net.drain 0 = some d0 ∧ net.drain 1 = some d1 ∧
        (dispatchConnection lib .client net sta).trace =
          [.setReadDeadline .client (some 3), .readAtLeast .client 1500 1 (some data),
            .setReadDeadline .client none, .write .client (lib.ComposeReply ch) true,
            .readTillDrain .client (some d0), .readTillDrain .client (some d1),
            .dial .ss net.ssDial] ++
          (if net.ssDial then [.spawn (.ssRemoteToServer ⟨.ss, .client⟩),
            .spawn (.ssServerToRemote ⟨.ss, .client⟩)] else [.fatal])) ∧
    (∀ data, ReadAtLeast net.firstSegment 1500 1 = some data →
      (lib.ParseClientHello data = none ∨
        ∃ ch, lib.ParseClientHello data = some ch ∧ lib.IsSS ch sta = false) →
      ∀ e ∈ (dispatchConnection lib .client net sta).trace, Conn.ss ∉ e.conns) ∧
    (dispatchConnection lib .client net sta).trace.filter (Ev.writesTo .ss) = [] ∧
    (∀ (rnet : RelayNet) (fuel k : Nat),
      (∀ e ∈ (webPair.remoteToServer ⟨.webServer, .client⟩ rnet fuel k).trace,
        Conn.ss ∉ e.conns) ∧
      (∀ e ∈ (webPair.serverToRemote ⟨.webServer, .client⟩ rnet).trace,
        Conn.ss ∉ e.conns)) := by
  refine ⟨?_, ?_, ?_, ?_⟩
  · intro e he hss
    rcases dispatchConnection_cases lib net sta with h | h
    · exact absurd hss (avoidsSS_sound h he)
    · exact h
  · intro data hread hno e he
    rcases dispatchConnection_cases lib net sta with h | ⟨data1, ch1, _, _, hr, hp, hs, _⟩
    · exact avoidsSS_sound h he
    · rw [hread] at hr
      cases hr
      rcases hno with hno | ⟨ch, hpc, hsc⟩
      · rw [hno] at hp; cases hp
      · rw [hpc] at hp
        cases hp
        rw [hsc] at hs
        cases hs
  · rcases dispatchConnection_cases lib net sta with h | ⟨_, _, _, _, _, _, _, _, _, _, ht⟩
    · rw [List.filter_eq_nil_iff]
      intro e he hw
      have hss := avoidsSS_sound h he
      cases e <;> simp [Ev.writesTo, Ev.conns] at hw hss
      · exact hss hw.symm
      · exact hss.1 hw.symm
    · rw [ht]
      cases net.ssDial <;> rfl
  · intro rnet fuel k
    constructor
    · intro e he hss
      rcases webPair_remoteToServer_conns _ rnet fuel k e he _ hss with h | h <;> cases h
    · intro e he hss
      rcases webPair_serverToRemote_conns _ rnet e he _ hss with h | h <;> cases h

theorem dispatchConnection_tunnel_only_authenticated_witness :
    (∃ data ch d0 d1, ReadAtLeast sampleNetSS.firstSegment 1500 1 = some data ∧
        sampleLib.ParseClientHello data = some ch ∧ sampleLib.IsSS ch () = true ∧
        sampleNetSS.replyWrite = true ∧ sampleNetSS.drain 0 = some d0 ∧
        sampleNetSS.drain 1 = some d1 ∧
        (dispatchConnection sampleLib .client sampleNetSS ()).trace =
          [.setReadDeadline .client (some 3), .readAtLeast .client 1500 1 (some data),
            .setReadDeadline .client none, .write .client (sampleLib.ComposeReply ch) true,
            .readTillDrain .client (some d0), .readTillDrain .client (some d1),
            .dial .ss sampleNetSS.ssDial] ++
          (if sampleNetSS.ssDial then [.spawn (.ssRemoteToServer ⟨.ss, .client⟩),
            .spawn (.ssServerToRemote ⟨.ss, .client⟩)] else [.fatal])) ∧
    (∀ e ∈ (dispatchConnection sampleLib .client sampleNetProbe ()).trace, Conn.ss ∉ e.conns) :=
  ⟨(dispatchConnection_tunnel_only_authenticated sampleLib sampleNetSS ()).1
      (.dial .ss true) (by decide) (by decide),
   (dispatchConnection_tunnel_only_authenticated sampleLib sampleNetProbe ()).2.1
      [0x16, 0] (by decide) (Or.inr ⟨[0x16, 0], by decide, by decide⟩)⟩

/-! ## The relay: teardown -/

theorem TornDown_cons {backend remote : Conn} {t : List Ev} {ret : Bool} (x : Ev)
    (hx : x.failed = false) (hc : x.isClose = false) (h : TornDown backend remote ⟨t, ret⟩) :
    TornDown backend remote ⟨x :: t, ret⟩ := by
  obtain ⟨hret, pre, e, ht, he, hpre⟩ := h
  refine ⟨hret, x :: pre, e, ?_, he, ?_⟩
  · simp only at ht
    simp [ht]
  · intro y hy
    simp only [List.mem_cons] at hy
    rcases hy with hy | hy
    · subst hy; exact ⟨hx, hc⟩
    · exact hpre y hy

theorem TornDown_last {backend remote : Conn} (e : Ev) (he : e.failed = true) :
    TornDown backend remote ⟨[e, .close backend, .close remote], true⟩ :=
  ⟨rfl, [], e, rfl, he, by simp⟩

theorem webPair_remoteToServer_teardown (pair : webPair) (net : RelayNet) :
    ∀ (k j fuel : Nat), (∀ i, j ≤ i → i < j + k → net.copyToWeb i = true) →
      net.copyToWeb (j + k) = false → k < fuel →
      TornDown pair.webServer pair.remote (pair.remoteToServer net fuel j) := by
  intro k
  induction k with
  | zero =>
    intro j fuel _ hk hfuel
    obtain ⟨f, rfl⟩ : ∃ f, fuel = f + 1 := ⟨fuel - 1, by omega⟩
    simp only [Nat.add_zero] at hk
    simp only [webPair.remoteToServer, hk, webPair.closePipe]
    exact TornDown_last _ rfl
  | succ k ih =>
    intro j fuel hprev hk hfuel
    obtain ⟨f, rfl⟩ : ∃ f, fuel = f + 1 := ⟨fuel - 1, by omega⟩
    have hj : net.copyToWeb j = true := hprev j (Nat.le_refl _) (by omega)
    have hrec := ih (j + 1) f (fun i h1 h2 => hprev i (by omega) (by omega))
      (by rw [show j + 1 + k = j + (k + 1) by omega]; exact hk) (by omega)
    simp only [webPair.remoteToServer, hj, if_true]
    exact TornDown_cons _ rfl rfl hrec

theorem ssPair_remoteToServer_teardown {CH St : Type} (lib : Lib CH St) (pair : ssPair)
    (net : RelayNet) :
    ∀ (k j fuel : Nat),
      (∀ i, j ≤ i → i < j + k → (net.drain i).isSome = true ∧ net.ssWrite i = true) →
      (net.drain (j + k) = none ∨ net.ssWrite (j + k) = false) → k < fuel →
      TornDown pair.ss pair.remote (ssPair.remoteToServer lib pair net fuel j) := by
  intro k
  induction k with
  | zero =>
    intro j fuel _ hk hfuel
    obtain ⟨f, rfl⟩ : ∃ f, fuel = f + 1 := ⟨fuel - 1, by omega⟩
    simp only [Nat.add_zero] at hk
    unfold ssPair.remoteToServer
    cases hd : net.drain j with
    | none => exact TornDown_last _ rfl
    | some d =>
      rcases hk with hk | hk
      · rw [hd] at hk; cases hk
      · simp only [hk, ssPair.closePipe]
        exact TornDown_cons _ rfl rfl (TornDown_last _ rfl)
  | succ k ih =>
    intro j fuel hprev hk hfuel
    obtain ⟨f, rfl⟩ : ∃ f, fuel = f + 1 := ⟨fuel - 1, by omega⟩
    obtain ⟨hd, hw⟩ := hprev j (Nat.le_refl _) (by omega)
    have hrec := ih (j + 1) f (fun i h1 h2 => hprev i (by omega) (by omega))
      (by rw [show j + 1 + k = j + (k + 1) by omega]; exact hk) (by omega)
    unfold ssPair.remoteToServer
    cases hdj : net.drain j with
    | none => rw [hdj] at hd; cases hd
    | some d =>
      simp only [hw, if_true]
      exact TornDown_cons _ rfl rfl (TornDown_cons _ rfl rfl hrec)

theorem ssPair_serverToRemote_teardown {CH St : Type} (lib : Lib CH St) (pair : ssPair)
    (net : RelayNet) :
    ∀ (k j fuel : Nat),
      (∀ i, j ≤ i → i < j + k →
        (ReadAtLeast (net.ssRead i) 10240 1).isSome = true ∧ net.remoteWrite i = true) →
      (ReadAtLeast (net.ssRead (j + k)) 10240 1 = none ∨ net.remoteWrite (j + k) = false) →
      k < fuel →
      TornDown pair.ss pair.remote (ssPair.serverToRemote lib pair net fuel j) := by
  intro k
  induction k with
  | zero =>
    intro j fuel _ hk hfuel
    obtain ⟨f, rfl⟩ : ∃ f, fuel = f + 1 := ⟨fuel - 1, by omega⟩
    simp only [Nat.add_zero] at hk
    unfold ssPair.serverToRemote
    cases hd : ReadAtLeast (net.ssRead j) 10240 1 with
    | none => exact TornDown_last _ rfl
    | some d =>
      rcases hk with hk | hk
      · rw [hd] at hk; cases hk
      · simp only [hk, ssPair.closePipe]
        exact TornDown_cons _ rfl rfl (TornDown_last _ rfl)
  | succ k ih =>
    intro j fuel hprev hk hfuel
    obtain ⟨f, rfl⟩ : ∃ f, fuel = f + 1 := ⟨fuel - 1, by omega⟩
    obtain ⟨hd, hw⟩ := hprev j (Nat.le_refl _) (by omega)
    have hrec := ih (j + 1) f (fun i h1 h2 => hprev i (by omega) (by omega))
      (by rw [show j + 1 + k = j + (k + 1) by omega]; exact hk) (by omega)
    unfold ssPair.serverToRemote
    cases hdj : ReadAtLeast (net.ssRead j) 10240 1 with
    | none => rw [hdj] at hd; cases hd
    | some d =>
      simp only [hw, if_true]
      exact TornDown_cons _ rfl rfl (TornDown_cons _ rfl rfl hrec)

/-- C5. For each of the four copy loops: when the first call that reports an
error is in iteration `k` (every earlier read, copy and write succeeded), the
loop, given fuel for more than `k` iterations, returns, and its calls are the
successful ones, then the failing one, then the two closes of `closePipe` (the
backend leg and the client leg), with no read or write after them. -/
theorem relay_first_error_closes_both_legs {CH St : Type} (lib : Lib CH St)
    (net : RelayNet) :
    (∀ pair : webPair, net.copyToRemote = false →
      TornDown pair.webServer pair.remote (pair.serverToRemote net)) ∧
    (∀ (pair : webPair) (k fuel : Nat), (∀ i, i < k → net.copyToWeb i = true) →
      net.copyToWeb k = false → k < fuel →
      TornDown pair.webServer pair.remote (pair.remoteToServer net fuel 0)) ∧
    (∀ (pair : ssPair) (k fuel : Nat),
      (∀ i, i < k → (net.drain i).isSome = true ∧ net.ssWrite i = true) →
      (net.drain k = none ∨ net.ssWrite k = false) → k < fuel →
      TornDown pair.ss pair.remote (ssPair.remoteToServer lib pair net fuel 0)) ∧
    (∀ (pair : ssPair) (k fuel : Nat),
      (∀ i, i < k →
        (ReadAtLeast (net.ssRead i) 10240 1).isSome = true ∧ net.remoteWrite i = true) →
      (ReadAtLeast (net.ssRead k) 10240 1 = none ∨ net.remoteWrite k = false) → k < fuel →
      TornDown pair.ss pair.remote (ssPair.serverToRemote lib pair net fuel 0)) := by
  refine ⟨?_, ?_, ?_, ?_⟩
  · intro pair h
    simp only [webPair.serverToRemote, h, webPair.closePipe]
    exact TornDown_last _ rfl
  · intro pair k fuel hprev hk hfuel
    exact webPair_remoteToServer_teardown pair net k 0 fuel
      (fun i _ h => hprev i (by omega)) (by rw [Nat.zero_add]; exact hk) hfuel
  · intro pair k fuel hprev hk hfuel
    exact ssPair_remoteToServer_teardown lib pair net k 0 fuel
      (fun i _ h => hprev i (by omega)) (by rw [Nat.zero_add]; exact hk) hfuel
  · intro pair k fuel hprev hk hfuel
    exact ssPair_serverToRemote_teardown lib pair net k 0 fuel
      (fun i _ h => hprev i (by omega)) (by rw [Nat.zero_add]; exact hk) hfuel

theorem relay_first_error_closes_both_legs_witness :
    TornDown .webServer .client (webPair.serverToRemote ⟨.webServer, .client⟩ sampleRelayBreaks) ∧
    TornDown .webServer .client
      (webPair.remoteToServer ⟨.webServer, .client⟩ sampleRelayBreaks 5 0) ∧
    TornDown .ss .client (ssPair.remoteToServer sampleLib ⟨.ss, .client⟩ sampleRelayBreaks 5 0) ∧
    TornDown .ss .client (ssPair.serverToRemote sampleLib ⟨.ss, .client⟩ sampleRelayBreaks 5 0) :=
  ⟨(relay_first_error_closes_both_legs sampleLib sampleRelayBreaks).1 ⟨.webServer, .client⟩ rfl,
   (relay_first_error_closes_both_legs sampleLib sampleRelayBreaks).2.1 ⟨.webServer, .client⟩ 2 5
      (by decide) (by decide) (by decide),
   (relay_first_error_closes_both_legs sampleLib sampleRelayBreaks).2.2.1 ⟨.ss, .client⟩ 2 5
      (by decide) (Or.inl (by decide)) (by decide),
   (relay_first_error_closes_both_legs sampleLib sampleRelayBreaks).2.2.2 ⟨.ss, .client⟩ 2 5
      (by decide) (Or.inl (by decide)) (by decide)⟩

/-- C6. When every copy of a web pair ends at end of stream without an error
(the peers closed in an orderly way): `webPair.serverToRemote` returns after its
one copy without closing anything, so the client-facing socket stays open; and
`webPair.remoteToServer`, whatever the fuel, has not returned and has closed
nothing: its calls are `io.Copy` again and again. -/
theorem webPair_end_of_stream_no_teardown :
    webPair.serverToRemote ⟨.webServer, .client⟩ sampleRelayEOF =
      ⟨[.copy .client .webServer true], true⟩ ∧
    ∀ fuel k : Nat, webPair.remoteToServer ⟨.webServer, .client⟩ sampleRelayEOF fuel k =
      ⟨List.replicate fuel (.copy .webServer .client true), false⟩ := by
  refine ⟨rfl, ?_⟩
  intro fuel
  induction fuel with
  | zero => intro k; rfl
  | succ fuel ih =>
    intro k
    simp [webPair.remoteToServer, sampleRelayEOF, List.replicate_succ] at ih ⊢
    exact ⟨congrArg LoopRun.trace (ih (k + 1)), congrArg LoopRun.returned (ih (k + 1))⟩

/-! ## The relay: outbound frames -/

theorem ssPair_serverToRemote_iteration {CH St : Type} (lib : Lib CH St) (pair : ssPair)
    (net : RelayNet) (p : Bytes) :
    ∀ (k j fuel : Nat),
      (∀ i, j ≤ i → i < j + k →
        (ReadAtLeast (net.ssRead i) 10240 1).isSome = true ∧ net.remoteWrite i = true) →
      ReadAtLeast (net.ssRead (j + k)) 10240 1 = some p → k < fuel →
      ((ssPair.serverToRemote lib pair net fuel j).trace.drop (2 * k)).take 2 =
        [.readAtLeast pair.ss 10240 1 (some p),
          .write pair.remote (lib.AddRecordLayer p [0x17] [0x03, 0x03])
            (net.remoteWrite (j + k))] := by
  intro k
  induction k with
  | zero =>
    intro j fuel _ hk hfuel
    obtain ⟨f, rfl⟩ : ∃ f, fuel = f + 1 := ⟨fuel - 1, by omega⟩
    simp only [Nat.add_zero] at hk
    unfold ssPair.serverToRemote
    simp only [hk, Nat.mul_zero, List.drop_zero, Nat.add_zero]
    cases net.remoteWrite j <;> simp
  | succ k ih =>
    intro j fuel hprev hk hfuel
    obtain ⟨f, rfl⟩ : ∃ f, fuel = f + 1 := ⟨fuel - 1, by omega⟩
    obtain ⟨hd, hw⟩ := hprev j (Nat.le_refl _) (by omega)
    have hrec := ih (j + 1) f (fun i h1 h2 => hprev i (by omega) (by omega))
      (by rw [show j + 1 + k = j + (k + 1) by omega]; exact hk) (by omega)
    unfold ssPair.serverToRemote
    cases hdj : ReadAtLeast (net.ssRead j) 10240 1 with
    | none => rw [hdj] at hd; cases hd
    | some d =>
      simp only [hw, if_true]
      rw [show 2 * (k + 1) = 2 * k + 1 + 1 by omega, List.drop_succ_cons, List.drop_succ_cons,
        hrec, show j + 1 + k = j + (k + 1) by omega]

/-- C9. In `ssPair.serverToRemote`, when iteration `k` is reached (every earlier
read and write succeeded) and its read succeeds with `p`: `p` is the bytes the
backend delivered, cut to the 10240 bytes of the buffer, so `1 ≤ |p| ≤ 10240`,
which fits 16 bits and is at most 16384; and the two calls of the iteration are
that read and then the write to the client of `AddRecordLayer p [0x17]
[0x03, 0x03]`, whatever `AddRecordLayer` is. -/
theorem ssPair_serverToRemote_frame_limits {CH St : Type} (lib : Lib CH St) (pair : ssPair)
    (net : RelayNet) (k fuel : Nat) (p : Bytes)
    (hprev : ∀ i, i < k →
      (ReadAtLeast (net.ssRead i) 10240 1).isSome = true ∧ net.remoteWrite i = true)
    (hread : ReadAtLeast (net.ssRead k) 10240 1 = some p)
    (hfuel : k < fuel) :
    (1 ≤ p.length ∧ p.length ≤ 10240 ∧ p.length < 2 ^ 16 ∧ p.length ≤ 16384) ∧
    (∃ d, net.ssRead k = some d ∧ p = d.take 10240) ∧
    ((ssPair.serverToRemote lib pair net fuel 0).trace.drop (2 * k)).take 2 =
      [.readAtLeast pair.ss 10240 1 (some p),
        .write pair.remote (lib.AddRecordLayer p [0x17] [0x03, 0x03]) (net.remoteWrite k)] := by
  have hlen := ReadAtLeast_length hread
  refine ⟨⟨hlen.1, hlen.2, by omega, by omega⟩, ?_, ?_⟩
  · unfold ReadAtLeast at hread
    cases hd : net.ssRead k with
    | none => rw [hd] at hread; cases hread
    | some d =>
      rw [hd] at hread
      simp only at hread
      split at hread
      · cases hread
        exact ⟨d, rfl, rfl⟩
      · cases hread
  · have h := ssPair_serverToRemote_iteration lib pair net p k 0 fuel
      (fun i _ h => hprev i (by omega)) (by rw [Nat.zero_add]; exact hread) hfuel
    rw [Nat.zero_add] at h
    exact h

theorem ssPair_serverToRemote_frame_limits_witness :
    (1 ≤ [(7 : Byte), 8].length ∧ [(7 : Byte), 8].length ≤ 10240 ∧
      [(7 : Byte), 8].length < 2 ^ 16 ∧ [(7 : Byte), 8].length ≤ 16384) ∧
    (∃ d, sampleRelayBreaks.ssRead 1 = some d ∧ [(7 : Byte), 8] = d.take 10240) ∧
    ((ssPair.serverToRemote sampleLib ⟨.ss, .client⟩ sampleRelayBreaks 5 0).trace.drop
        (2 * 1)).take 2 =
      [.readAtLeast .ss 10240 1 (some [7, 8]),
        .write .client (sampleLib.AddRecordLayer [7, 8] [0x17] [0x03, 0x03])
          (sampleRelayBreaks.remoteWrite 1)] :=
  ssPair_serverToRemote_frame_limits sampleLib ⟨.ss, .client⟩ sampleRelayBreaks 1 5 [7, 8]
    (by decide) (by decide) (by decide)

/-! ## The replay cache sweep -/

theorem wrapInt_of_inRange {x : Int} (h1 : -2 ^ 63 ≤ x) (h2 : x < 2 ^ 63) : wrapInt x = x := by
  unfold wrapInt
  omega

theorem sweep_foldl (now : Int) (l : UsedRandom) :
    ∀ acc : UsedRandom,
      l.foldl (fun acc e =>
          if wrapInt (now - e.2) > 12 * 3600 then DelUsedRandom acc e.1 else acc) acc =
        acc.filter (fun x => decide (∀ e ∈ l, wrapInt (now - e.2) > 12 * 3600 → e.1 ≠ x.1)) := by
  induction l with
  | nil => intro acc; simp
  | cons a l ih =>
    intro acc
    rw [List.foldl_cons, ih]
    by_cases ha : wrapInt (now - a.2) > 12 * 3600
    · simp only [ha, if_true, DelUsedRandom, List.filter_filter]
      apply List.filter_congr
      intro x _
      simp only [List.forall_mem_cons, ha, true_implies, Bool.decide_and, Bool.and_comm]
      simp [eq_comm]
    · simp only [ha, if_false]
      apply List.filter_congr
      intro x _
      rw [decide_eq_decide, List.forall_mem_cons]
      exact ⟨fun h => ⟨fun hgt => absurd hgt ha, h⟩, fun h => h.2⟩

theorem sweep_eq_filter (now : Int) (m : UsedRandom) (hm : m.WellFormed) :
    usedRandomCleaner.sweep now m =
      m.filter (fun e => decide (wrapInt (now - e.2) ≤ 12 * 3600)) := by
  unfold usedRandomCleaner.sweep
  rw [sweep_foldl]
  apply List.filter_congr
  intro x hx
  rw [decide_eq_decide]
  constructor
  · intro h
    by_contra hgt
    exact h x hx (by omega) rfl
  · intro hle e he hgt heq
    have : e = x := List.inj_on_of_nodup_map hm he hx heq
    subst this
    omega

/-- C7. One pass of `usedRandomCleaner` at clock value `now` leaves exactly the
entries of the cache with `now - t <= 12*3600`, in the `int` arithmetic of the
code, each with its timestamp unchanged; when no difference `now - t` leaves the
64-bit range this is the set of entries with `now - t ≤ 43200` over the
integers. A nonce inserted at time `T` is gone after a pass at `T + 43201` and is
still there, with timestamp `T`, after a pass at `T + 11 h` or at `T + 12 h`.
One turn of the endless loop is one such pass. -/
theorem usedRandomCleaner_sweep_correct (now : Int) (m : UsedRandom) (hm : m.WellFormed) :
    usedRandomCleaner.sweep now m =
      m.filter (fun e => decide (wrapInt (now - e.2) ≤ 12 * 3600)) ∧
    ((∀ e ∈ m, -2 ^ 63 ≤ now - e.2 ∧ now - e.2 < 2 ^ 63) →
      usedRandomCleaner.sweep now m = m.filter (fun e => decide (now - e.2 ≤ 43200))) ∧
    (∀ (key : Nonce) (T : Int), (key, T) ∈ m →
      (∀ t, (key, t) ∉ usedRandomCleaner.sweep (T + 43201) m) ∧
      (key, T) ∈ usedRandomCleaner.sweep (T + 11 * 3600) m ∧
      (key, T) ∈ usedRandomCleaner.sweep (T + 12 * 3600) m) ∧
    (∀ (clock : Nat → Int) (k : Nat),
      usedRandomCleaner clock 1 k m = usedRandomCleaner.sweep (clock k) m) := by
  refine ⟨sweep_eq_filter now m hm, ?_, ?_, fun _ _ => rfl⟩
  · intro hrange
    rw [sweep_eq_filter now m hm]
    apply List.filter_congr
    intro x hx
    rw [wrapInt_of_inRange (hrange x hx).1 (hrange x hx).2]
    rfl
  · intro key T hmem
    refine ⟨?_, ?_, ?_⟩
    · intro t ht
      rw [sweep_eq_filter _ m hm, List.mem_filter] at ht
      have heq : (key, t) = (key, T) := List.inj_on_of_nodup_map hm ht.1 hmem rfl
      cases heq
      have h := ht.2
      rw [decide_eq_true_eq] at h
      have hw : wrapInt (T + 43201 - T) = 43201 := by unfold wrapInt; omega
      simp only [hw] at h
      omega
    · rw [sweep_eq_filter _ m hm, List.mem_filter]
      refine ⟨hmem, ?_⟩
      rw [decide_eq_true_eq]
      have hw : wrapInt (T + 11 * 3600 - T) = 39600 := by unfold wrapInt; omega
      simp only [hw]
      omega
    · rw [sweep_eq_filter _ m hm, List.mem_filter]
      refine ⟨hmem, ?_⟩
      rw [decide_eq_true_eq]
      have hw : wrapInt (T + 12 * 3600 - T) = 43200 := by unfold wrapInt; omega
      simp only [hw]
      omega

theorem usedRandomCleaner_sweep_correct_witness :
    sampleCache.WellFormed ∧
    usedRandomCleaner.sweep 50000 sampleCache =
      sampleCache.filter (fun e => decide (wrapInt (50000 - e.2) ≤ 12 * 3600)) ∧
    usedRandomCleaner.sweep 50000 sampleCache =
      sampleCache.filter (fun e => decide ((50000 : Int) - e.2 ≤ 43200)) ∧
    (∀ t, (sampleNonce 0, t) ∉ usedRandomCleaner.sweep (1000 + 43201) sampleCache) :=
  have hm : sampleCache.WellFormed := by unfold UsedRandom.WellFormed; decide
  have h := usedRandomCleaner_sweep_correct 50000 sampleCache hm
  ⟨hm, h.1, h.2.1 (by decide), (h.2.2.1 (sampleNonce 0) 1000 (by decide)).1⟩

end GoQuiet
